import Mathlib

/-!
# Verification of the switchboard-mockup Lambda caching and query-filter code

Shallow embedding of the repository's core:

* `src/lambda/api-cache.js` — the read-through dataset cache
  (`shouldBypassCache`, `getCachedApiData`, `getMetadata`, `updateMetadata`);
* `src/lambda/index.js` — the query-filter engine (`parseQuery` and the
  record filter inside `processQuery`).

JS values appearing in records and predicates (strings, numbers, booleans,
null, and the `undefined` produced by a missing field) are modelled by
`JSVal`; JS numbers are modelled by rationals plus the two infinities
(`JSNum`).  No `NaN` value is needed: `parseFloat`/`Number()` results are
modelled as `Option JSNum` with `none` standing for `NaN`, and JSON data
never contains `NaN`.  File-system state and the in-process metadata map of
`api-cache.js` are modelled by `CacheState`; the Supabase storage download
(`fetchFreshData`) is modelled by an explicit `store` argument giving the
result the fetch would produce at the time of the call, together with a
`fetchCount` field recording how many times the fetch was invoked.
-/

set_option autoImplicit false

namespace Switchboard

/-- A JS number: a finite value (rational; JSON/decimal literals are exact)
or one of the two infinities.  `NaN` is represented externally by
`Option JSNum = none`. -/
inductive JSNum where
  | fin (q : ℚ)
  | posInf
  | negInf
deriving DecidableEq, Repr

/-- A JS scalar value as it appears in records and parsed predicates. -/
inductive JSVal where
  | str (s : String)
  | num (n : JSNum)
  | bool (b : Bool)
  | null
  | undefined
deriving DecidableEq, Repr

/-- A record of the dataset: a JS object, field name to scalar value
(keys unique, as produced by `JSON.parse`). -/
abbrev Record := List (String × JSVal)

/-- `item[key]` on a JS object: the field's value, or `undefined` when the
field is absent. -/
def getField (item : Record) (key : String) : JSVal :=
  match item.find? (fun p => p.1 == key) with
  | some p => p.2
  | none => JSVal.undefined

/-! ## Percent-decoding (`decodeURIComponent`)

ECMA-262 `decodeURIComponent`: every `%XX` escape is decoded, multi-byte
UTF-8 sequences are assembled and validated (stray continuation bytes,
overlong encodings, surrogate code points and out-of-range code points
throw `URIError`).  A throw is modelled by `none`. -/

/-- Value of a hexadecimal digit character. -/
def hexVal? (c : Char) : Option Nat :=
  if '0' ≤ c ∧ c ≤ '9' then some (c.toNat - 48)
  else if 'a' ≤ c ∧ c ≤ 'f' then some (c.toNat - 87)
  else if 'A' ≤ c ∧ c ≤ 'F' then some (c.toNat - 55)
  else none

/-- One unit of a percent-encoded string: a literal character or a decoded
`%XX` byte. -/
inductive DecUnit where
  | raw (c : Char)
  | byte (b : Nat)
deriving DecidableEq, Repr

/-- First phase of `decodeURIComponent`: turn `%XX` escapes into bytes,
failing on malformed escapes. -/
def percentUnits : List Char → Option (List DecUnit)
  | [] => some []
  | '%' :: c1 :: c2 :: rest =>
    match hexVal? c1, hexVal? c2 with
    | some a, some b => (percentUnits rest).map (DecUnit.byte (16 * a + b) :: ·)
    | _, _ => none
  | '%' :: _ => none
  | c :: rest => (percentUnits rest).map (DecUnit.raw c :: ·)

/-- A UTF-8 continuation byte. -/
def contOk (b : Nat) : Bool := decide (0x80 ≤ b ∧ b < 0xC0)

/-- Payload bits of a UTF-8 continuation byte. -/
def contVal (b : Nat) : Nat := b - 0x80

/-- Second phase of `decodeURIComponent`: assemble decoded bytes into
characters, validating UTF-8 (no overlong forms, no surrogates, maximum
U+10FFFF). -/
def utf8Decode : List DecUnit → Option (List Char)
  | [] => some []
  | DecUnit.raw c :: us => (utf8Decode us).map (c :: ·)
  | DecUnit.byte b :: us =>
    if b < 0x80 then (utf8Decode us).map (Char.ofNat b :: ·)
    else if b < 0xC2 then none
    else if b < 0xE0 then
      match us with
      | DecUnit.byte b1 :: us2 =>
        if contOk b1 then
          (utf8Decode us2).map (Char.ofNat ((b - 0xC0) * 0x40 + contVal b1) :: ·)
        else none
      | _ => none
    else if b < 0xF0 then
      match us with
      | DecUnit.byte b1 :: DecUnit.byte b2 :: us2 =>
        if contOk b1 && contOk b2 then
          let cp := (b - 0xE0) * 0x1000 + contVal b1 * 0x40 + contVal b2
          if 0x800 ≤ cp ∧ ¬(0xD800 ≤ cp ∧ cp ≤ 0xDFFF) then
            (utf8Decode us2).map (Char.ofNat cp :: ·)
          else none
        else none
      | _ => none
    else if b < 0xF5 then
      match us with
      | DecUnit.byte b1 :: DecUnit.byte b2 :: DecUnit.byte b3 :: us2 =>
        if contOk b1 && contOk b2 && contOk b3 then
          let cp := (b - 0xF0) * 0x40000 + contVal b1 * 0x1000
              + contVal b2 * 0x40 + contVal b3
          if 0x10000 ≤ cp ∧ cp ≤ 0x10FFFF then
            (utf8Decode us2).map (Char.ofNat cp :: ·)
          else none
        else none
      | _ => none
    else none

/-- `decodeURIComponent(s)`; `none` models a thrown `URIError`. -/
def decodeURIComponent (s : String) : Option String :=
  ((percentUnits s.data).bind utf8Decode).map List.asString

/-! ## Numeric parsing (`parseFloat`, `Number()`) -/

/-- JS whitespace (the WhiteSpace and LineTerminator characters the string
trimming of `parseFloat`/`Number()` skips; the principal ones). -/
def isJsWhitespace (c : Char) : Bool :=
  c == ' ' || c == '\t' || c == '\n' || c == '\r' || c == '\x0b' ||
  c == '\x0c' || c == '\u00A0' || c == '\uFEFF' || c == '\u2028' || c == '\u2029'

/-- Take the longest run of leading decimal digits, as digit values. -/
def takeDigits : List Char → List Nat × List Char
  | [] => ([], [])
  | c :: cs =>
    if '0' ≤ c ∧ c ≤ '9' then
      let (ds, rest) := takeDigits cs
      ((c.toNat - 48) :: ds, rest)
    else ([], c :: cs)

/-- Decimal digit list to natural number. -/
def digitsToNat (ds : List Nat) : Nat := ds.foldl (fun a d => 10 * a + d) 0

/-- Parse an optional `ExponentPart` (`e`/`E`, optional sign, digits);
consumed only when digits follow, as in JS longest-valid-prefix parsing. -/
def parseExpo (cs : List Char) : Int × List Char :=
  match cs with
  | c :: r1 =>
    if c = 'e' ∨ c = 'E' then
      match r1 with
      | '+' :: r2 =>
        let (ds, r3) := takeDigits r2
        if ds.isEmpty then (0, cs) else ((digitsToNat ds : Int), r3)
      | '-' :: r2 =>
        let (ds, r3) := takeDigits r2
        if ds.isEmpty then (0, cs) else (-(digitsToNat ds : Int), r3)
      | _ =>
        let (ds, r3) := takeDigits r1
        if ds.isEmpty then (0, cs) else ((digitsToNat ds : Int), r3)
    else (0, cs)
  | [] => (0, cs)

/-- Apply a decimal exponent to a rational. -/
def applyExpo (q : ℚ) (e : Int) : ℚ :=
  if 0 ≤ e then q * (10 : ℚ) ^ e.toNat else q / (10 : ℚ) ^ (-e).toNat

/-- Parse the longest `StrUnsignedDecimalLiteral` prefix other than
`Infinity`: digits, optional fraction, optional exponent.  Returns the
value and the unconsumed rest; `none` when no digits are present. -/
def parseDecBody (cs : List Char) : Option (ℚ × List Char) :=
  let (ids, r1) := takeDigits cs
  match r1 with
  | '.' :: r2 =>
    let (fds, r3) := takeDigits r2
    if ids.isEmpty && fds.isEmpty then none
    else
      let base : ℚ := (digitsToNat ids : ℚ) + (digitsToNat fds : ℚ) / (10 : ℚ) ^ fds.length
      let (e, r4) := parseExpo r3
      some (applyExpo base e, r4)
  | _ =>
    if ids.isEmpty then none
    else
      let (e, r4) := parseExpo r1
      some (applyExpo (digitsToNat ids : ℚ) e, r4)

/-- Does the character list start with the literal `Infinity`? -/
def isInfinityAt (cs : List Char) : Bool :=
  match cs with
  | 'I' :: 'n' :: 'f' :: 'i' :: 'n' :: 'i' :: 't' :: 'y' :: _ => true
  | _ => false

/-- `parseFloat` after the optional sign has been consumed. -/
def jsParseFloatSigned (cs : List Char) (neg : Bool) : Option JSNum :=
  if isInfinityAt cs then some (if neg then JSNum.negInf else JSNum.posInf)
  else
    match parseDecBody cs with
    | some (q, _) => some (JSNum.fin (if neg then -q else q))
    | none => none

/-- ECMA-262 `parseFloat`: skip whitespace, optional sign, longest valid
decimal-literal prefix; `none` models `NaN`. -/
def jsParseFloat (s : String) : Option JSNum :=
  match s.data.dropWhile isJsWhitespace with
  | '+' :: rest => jsParseFloatSigned rest false
  | '-' :: rest => jsParseFloatSigned rest true
  | cs => jsParseFloatSigned cs false

/-- Value of a non-empty digit string in the given radix (used for the
`0x`/`0o`/`0b` forms of `Number()`). -/
def radixVal? (radix : Nat) (cs : List Char) : Option Nat :=
  if cs.isEmpty then none
  else
    cs.foldl
      (fun acc c =>
        match acc, hexVal? c with
        | some a, some d => if d < radix then some (radix * a + d) else none
        | _, _ => none)
      (some 0)

/-- `Number()` decimal branch after the optional sign: the whole remaining
string must be consumed. -/
def strDecFullSigned (cs : List Char) (neg : Bool) : Option JSNum :=
  if isInfinityAt cs then
    if (cs.drop 8).isEmpty then some (if neg then JSNum.negInf else JSNum.posInf)
    else none
  else
    match parseDecBody cs with
    | some (q, []) => some (JSNum.fin (if neg then -q else q))
    | _ => none

/-- `Number()` decimal branch with optional sign. -/
def strDecFull (cs : List Char) : Option JSNum :=
  match cs with
  | '+' :: rest => strDecFullSigned rest false
  | '-' :: rest => strDecFullSigned rest true
  | _ => strDecFullSigned cs false

/-- ECMA-262 `ToNumber` on a string (`Number(s)`): trim whitespace, empty
string is `0`, `0x`/`0o`/`0b` radix literals (no sign), otherwise a fully
consumed signed decimal literal or `Infinity`; `none` models `NaN`. -/
def jsStringToNumber (s : String) : Option JSNum :=
  let t := ((s.data.dropWhile isJsWhitespace).reverse.dropWhile isJsWhitespace).reverse
  match t with
  | [] => some (JSNum.fin 0)
  | '0' :: c :: rest =>
    if c = 'x' ∨ c = 'X' then (radixVal? 16 rest).map (fun n => JSNum.fin (n : ℚ))
    else if c = 'o' ∨ c = 'O' then (radixVal? 8 rest).map (fun n => JSNum.fin (n : ℚ))
    else if c = 'b' ∨ c = 'B' then (radixVal? 2 rest).map (fun n => JSNum.fin (n : ℚ))
    else strDecFull t
  | _ => strDecFull t

/-! ## JS comparison semantics (`==`, `!=`, `<`, `>`, `<=`, `>=`) -/

/-- Equality of JS numbers. -/
def JSNum.beq : JSNum → JSNum → Bool
  | JSNum.fin a, JSNum.fin b => a == b
  | JSNum.posInf, JSNum.posInf => true
  | JSNum.negInf, JSNum.negInf => true
  | _, _ => false

/-- Strict order on JS numbers. -/
def JSNum.blt : JSNum → JSNum → Bool
  | JSNum.fin a, JSNum.fin b => Rat.blt a b
  | JSNum.fin _, JSNum.posInf => true
  | JSNum.negInf, JSNum.fin _ => true
  | JSNum.negInf, JSNum.posInf => true
  | _, _ => false

/-- `ToNumber(bool)`. -/
def boolToNum (b : Bool) : JSNum := JSNum.fin (if b then 1 else 0)

/-- ECMA-262 `ToNumber` on a primitive; `none` models `NaN`
(`undefined` converts to `NaN`, `null` to `0`). -/
def jsToNumber : JSVal → Option JSNum
  | JSVal.num n => some n
  | JSVal.str s => jsStringToNumber s
  | JSVal.bool b => some (boolToNum b)
  | JSVal.null => some (JSNum.fin 0)
  | JSVal.undefined => none

/-- UTF-16 code units of a string (JS strings compare by code unit). -/
def utf16CodeUnits (s : String) : List Nat :=
  s.data.foldr
    (fun c acc =>
      let n := c.toNat
      if n < 0x10000 then n :: acc
      else (0xD800 + (n - 0x10000) / 0x400) :: (0xDC00 + (n - 0x10000) % 0x400) :: acc)
    []

/-- Lexicographic order on code-unit lists. -/
def lexLtUnits : List Nat → List Nat → Bool
  | [], [] => false
  | [], _ :: _ => true
  | _ :: _, [] => false
  | a :: as, b :: bs => if a < b then true else if b < a then false else lexLtUnits as bs

/-- JS string `<`: lexicographic by UTF-16 code units. -/
def jsStrLt (a b : String) : Bool := lexLtUnits (utf16CodeUnits a) (utf16CodeUnits b)

/-- ECMA-262 IsLooselyEqual (`==`) restricted to the primitive values of
this data model. -/
def jsEq : JSVal → JSVal → Bool
  | JSVal.undefined, JSVal.undefined => true
  | JSVal.null, JSVal.null => true
  | JSVal.undefined, JSVal.null => true
  | JSVal.null, JSVal.undefined => true
  | JSVal.num a, JSVal.num b => a.beq b
  | JSVal.str a, JSVal.str b => a == b
  | JSVal.bool a, JSVal.bool b => a == b
  | JSVal.num a, JSVal.str s =>
    match jsStringToNumber s with
    | some b => a.beq b
    | none => false
  | JSVal.str s, JSVal.num b =>
    match jsStringToNumber s with
    | some a => a.beq b
    | none => false
  | JSVal.bool a, JSVal.num b => (boolToNum a).beq b
  | JSVal.num a, JSVal.bool b => a.beq (boolToNum b)
  | JSVal.bool a, JSVal.str s =>
    match jsStringToNumber s with
    | some b => (boolToNum a).beq b
    | none => false
  | JSVal.str s, JSVal.bool b =>
    match jsStringToNumber s with
    | some a => a.beq (boolToNum b)
    | none => false
  | _, _ => false

/-- ECMA-262 IsLessThan on primitives: both strings compare by code units,
otherwise numerically; `none` models the `undefined` result (a `NaN`
operand). -/
def jsCmpLt (x y : JSVal) : Option Bool :=
  match x, y with
  | JSVal.str a, JSVal.str b => some (jsStrLt a b)
  | _, _ =>
    match jsToNumber x, jsToNumber y with
    | some a, some b => some (a.blt b)
    | _, _ => none

/-! ## The query filter engine (`src/lambda/index.js`) -/

/-- A comparison operator of the predicate language. -/
inductive Op where
  | eq
  | ne
  | gt
  | lt
  | ge
  | le
deriving DecidableEq, Repr

/-- One parsed predicate: the single operator/operand pair stored under a
query key (`{ '>=': 100 }` and the like). -/
structure Cond where
  op : Op
  val : JSVal
deriving DecidableEq, Repr

/-- The `switch (operator)` of `processQuery`: evaluate one comparison,
`itemValue` against the predicate operand (`x > y` is `y < x` etc., with
an `undefined` comparison result evaluating false). -/
def evalOp (op : Op) (itemValue v : JSVal) : Bool :=
  match op with
  | Op.eq => jsEq itemValue v
  | Op.ne => !jsEq itemValue v
  | Op.gt => (jsCmpLt v itemValue).getD false
  | Op.lt => (jsCmpLt itemValue v).getD false
  | Op.ge =>
    match jsCmpLt itemValue v with
    | some b => !b
    | none => false
  | Op.le =>
    match jsCmpLt v itemValue with
    | some b => !b
    | none => false

/-- `isNaN(parseFloat(s)) ? s : parseFloat(s)` — the operand of an ordering
operator: numeric when `parseFloat` succeeds, else the string itself. -/
def numOrStr (s : String) : JSVal :=
  match jsParseFloat s with
  | some n => JSVal.num n
  | none => JSVal.str s

/-- JS `String.prototype.startsWith(marker)`.  The markers of `parseQuery`
are ASCII, so the code-unit prefix test of JS coincides with this
character-list prefix test. -/
def strStartsWith (d marker : String) : Bool := marker.data.isPrefixOf d.data

/-- JS `String.prototype.slice(n)` for the marker lengths of `parseQuery`
(1 or 2 ASCII code units, hence `n` characters). -/
def strDropChars (d : String) (n : Nat) : String := (d.data.drop n).asString

/-- The marker-dispatch of `parseQuery` on one already-decoded value: the
`if`/`else if` chain on `decodedValue` (`!` first, then `>=`, `<=`, `>`,
`<`, else equality).  Equality and inequality keep the decoded string;
ordering operators attempt the numeric parse. -/
def parseDecoded (d : String) : Cond :=
  if strStartsWith d "!" then ⟨Op.ne, JSVal.str (strDropChars d 1)⟩
  else if strStartsWith d ">=" then ⟨Op.ge, numOrStr (strDropChars d 2)⟩
  else if strStartsWith d "<=" then ⟨Op.le, numOrStr (strDropChars d 2)⟩
  else if strStartsWith d ">" then ⟨Op.gt, numOrStr (strDropChars d 1)⟩
  else if strStartsWith d "<" then ⟨Op.lt, numOrStr (strDropChars d 1)⟩
  else ⟨Op.eq, JSVal.str d⟩

/-- `parseQuery(queryParams)`: percent-decode each raw value, then dispatch
on the decoded value's leading marker.  `none` models the `URIError` a
malformed escape throws out of the loop. -/
def parseQuery : List (String × String) → Option (List (String × Cond))
  | [] => some []
  | (k, v) :: rest =>
    match decodeURIComponent v with
    | none => none
    | some d =>
      match parseQuery rest with
      | none => none
      | some q => some ((k, parseDecoded d) :: q)

/-- The record filter of `processQuery`:
`jsonData.filter(item => Object.entries(parsedQuery).every(...))`. -/
def applyFilter (jsonData : List Record) (parsedQuery : List (String × Cond)) : List Record :=
  jsonData.filter fun item =>
    parsedQuery.all fun kc => evalOp kc.2.op (getField item kc.1) kc.2.val

/-! ## The dataset cache (`src/lambda/api-cache.js`)

The scratch area `/tmp/api-cache` holds, per `apiId`, a data file
`{apiId}-data.json` and a metadata file `{apiId}-metadata.json`; both maps
are keyed here by `apiId` (the path prefix is a fixed bijection).  A file
is absent (`none`), readable with the expected JSON shape (`ok`), or
present but unreadable/unparsable (`corrupt`).  The in-process
`metadataCache` map is keyed by the cache key `"api-" ++ apiId` and holds
the parsed metadata (its `timestamp` field).  `Date.now()` at the time of
the call is the explicit argument `now`; `fetchFreshData`'s outcome
(download plus `JSON.parse`) is the explicit argument `store`, and
`fetchCount` counts how many times that fetch was invoked during the
call.  Errors are the thrown `Error`'s message string. -/

/-- Content of a `{apiId}-metadata.json` file: a parsable
`{ timestamp: t }`, or unreadable/unparsable content. -/
inductive MetaFile where
  | ok (timestamp : Nat)
  | corrupt
deriving DecidableEq, Repr

/-- Content of a `{apiId}-data.json` file: a parsable record array, or
unreadable/unparsable content. -/
inductive DataFile where
  | ok (payload : List Record)
  | corrupt
deriving DecidableEq, Repr

/-- The mutable state of `api-cache.js`: the in-process `metadataCache`
map and the two kinds of files in the scratch directory. -/
structure CacheState where
  metadataCache : String → Option Nat
  metaFiles : String → Option MetaFile
  dataFiles : String → Option DataFile

/-- Point update of a string-keyed map. -/
def setMap {α : Type} (m : String → Option α) (k : String) (v : α) : String → Option α :=
  fun k2 => if k2 = k then some v else m k2

/-- `const cacheExpiration = 5 * 60 * 1000` (milliseconds). -/
def cacheExpiration : Nat := 5 * 60 * 1000

/-- `CACHE_BYPASS_KEYWORDS`. -/
def CACHE_BYPASS_KEYWORDS : List String :=
  ["bao.ngo", "opensocial", "ngoduybao", "harrybaocorn"]

/-- `shouldBypassCache(pathSegments)`:
`CACHE_BYPASS_KEYWORDS.some(keyword => pathSegments.includes(keyword))`. -/
def shouldBypassCache (pathSegments : List String) : Bool :=
  CACHE_BYPASS_KEYWORDS.any fun keyword => pathSegments.contains keyword

/-- The cache key `api-${apiId}` of the in-process map. -/
def cacheKeyOf (apiId : String) : String := "api-" ++ apiId

/-- `getMetadata(metadataPath, cacheKey)`: in-memory map first; on miss
read and parse the metadata file, remembering it in the map; on a missing
or invalid file return `null` (`none`).  Returns the metadata timestamp
and the possibly-updated state. -/
def getMetadata (s : CacheState) (apiId : String) : Option Nat × CacheState :=
  match s.metadataCache (cacheKeyOf apiId) with
  | some t => (some t, s)
  | none =>
    match s.metaFiles apiId with
    | some (MetaFile.ok t) =>
      (some t, { s with metadataCache := setMap s.metadataCache (cacheKeyOf apiId) t })
    | _ => (none, s)

/-- `updateMetadata(metadataPath, cacheKey)`: write
`{ timestamp: Date.now() }` to the metadata file and set the in-process
map. -/
def updateMetadata (s : CacheState) (apiId : String) (now : Nat) : CacheState :=
  { s with
    metaFiles := setMap s.metaFiles apiId (MetaFile.ok now),
    metadataCache := setMap s.metadataCache (cacheKeyOf apiId) now }

/-- Outcome of one `getCachedApiData` call: the returned/thrown result,
the state after the call, and how many times `fetchFreshData` ran. -/
structure GetOutcome where
  result : Except String (List Record)
  state : CacheState
  fetchCount : Nat

/-- The miss path of `getCachedApiData`: `fetchFreshData`, then write the
data file, then `updateMetadata`; a fetch failure is caught and rethrown
as the generic error, leaving the state untouched (`fs.mkdir` of the
scratch directory has no observable effect in this model). -/
def refreshPath (s : CacheState) (apiId : String) (now : Nat)
    (store : Except String (List Record)) : GetOutcome :=
  match store with
  | Except.error _ => ⟨Except.error "Failed to fetch API data", s, 1⟩
  | Except.ok jsonData =>
    let s2 := { s with dataFiles := setMap s.dataFiles apiId (DataFile.ok jsonData) }
    ⟨Except.ok jsonData, updateMetadata s2 apiId now, 1⟩

/-- `getCachedApiData(supabase, apiId, pathSegments)`.  Bypass check
first (a fetch error there is caught and rethrown as the generic error);
otherwise `getMetadata`, the freshness test
`Date.now() - metadata.timestamp < cacheExpiration`, and on a hit the
read-and-parse of the data file (an unreadable file's exception is caught
by the surrounding `catch` and rethrown as the generic error); on a miss
the refresh path. -/
def getCachedApiData (s : CacheState) (apiId : String) (pathSegments : List String)
    (now : Nat) (store : Except String (List Record)) : GetOutcome :=
  if shouldBypassCache pathSegments then
    match store with
    | Except.ok jsonData => ⟨Except.ok jsonData, s, 1⟩
    | Except.error _ => ⟨Except.error "Failed to fetch API data", s, 1⟩
  else
    let md := getMetadata s apiId
    match md.1 with
    | some t =>
      if now - t < cacheExpiration then
        match md.2.dataFiles apiId with
        | some (DataFile.ok payload) => ⟨Except.ok payload, md.2, 0⟩
        | _ => ⟨Except.error "Failed to fetch API data", md.2, 0⟩
      else refreshPath md.2 apiId now store
    | none => refreshPath md.2 apiId now store

/-- `processQuery(supabase, apiId, pathSegments, operation, queryParams)`:
reject unknown operations, get the (possibly cached) dataset, parse the
query and filter. -/
def processQuery (s : CacheState) (apiId : String) (pathSegments : List String)
    (operation : String) (queryParams : List (String × String)) (now : Nat)
    (store : Except String (List Record)) : Except String (List Record) × CacheState :=
  if operation ≠ "search" then (Except.error "Unknown operation", s)
  else
    let o := getCachedApiData s apiId pathSegments now store
    match o.result with
    | Except.error e => (Except.error e, o.state)
    | Except.ok jsonData =>
      match parseQuery queryParams with
      | none => (Except.error "URIError: URI malformed", o.state)
      | some parsedQuery => (Except.ok (applyFilter jsonData parsedQuery), o.state)

/-! ### Concrete states for witnesses -/

/-- An empty cache state: no in-process metadata, no files. -/
def stateEmpty : CacheState := ⟨fun _ => none, fun _ => none, fun _ => none⟩

/-- A one-record payload for the example dataset. -/
def payloadA : List Record := [[("score", JSVal.num (JSNum.fin 10))]]

/-- A state holding a complete fresh entry for dataset `ds1` fetched at
time 1000. -/
def stateFresh : CacheState :=
  ⟨fun k => if k = "api-ds1" then some 1000 else none,
   fun k => if k = "ds1" then some (MetaFile.ok 1000) else none,
   fun k => if k = "ds1" then some (DataFile.ok payloadA) else none⟩

/-- A state whose in-process metadata for `ds1` claims a fetch at time
1000 while the data file is unreadable. -/
def stateCorruptData : CacheState :=
  ⟨fun k => if k = "api-ds1" then some 1000 else none,
   fun _ => none,
   fun k => if k = "ds1" then some DataFile.corrupt else none⟩

/-- A state with no in-process metadata and an unparsable durable
metadata file for `ds1`. -/
def stateCorruptMeta : CacheState :=
  ⟨fun _ => none,
   fun k => if k = "ds1" then some MetaFile.corrupt else none,
   fun _ => none⟩

/-! ## Helper lemmas -/

theorem getMetadata_snd_dataFiles (s : CacheState) (apiId : String) :
    (getMetadata s apiId).2.dataFiles = s.dataFiles := by
  unfold getMetadata
  cases s.metadataCache (cacheKeyOf apiId) with
  | some t => rfl
  | none =>
    cases h : s.metaFiles apiId with
    | some mf => cases mf <;> simp
    | none => rfl

theorem getMetadata_snd_metaFiles (s : CacheState) (apiId : String) :
    (getMetadata s apiId).2.metaFiles = s.metaFiles := by
  unfold getMetadata
  cases s.metadataCache (cacheKeyOf apiId) with
  | some t => rfl
  | none =>
    cases h : s.metaFiles apiId with
    | some mf => cases mf <;> simp
    | none => rfl

theorem applyFilter_eq_filter (jsonData : List Record) (parsedQuery : List (String × Cond)) :
    applyFilter jsonData parsedQuery =
      jsonData.filter (fun item =>
        parsedQuery.all fun kc => evalOp kc.2.op (getField item kc.1) kc.2.val) := rfl

/-! ## Claim theorems -/

/-- C1: a non-bypass `get` at time `T + Δ` with `Δ < expirationWindow`,
when the cache metadata records fetch time `T` and the scratch area holds
payload `p`, performs no store fetch and returns exactly `p` — for every
possible store outcome, in particular when the store fetch would fail. -/
theorem c1_fresh_hit_avoids_fetch (s : CacheState) (apiId : String)
    (pathSegments : List String) (T Δ : Nat) (payload : List Record)
    (store : Except String (List Record))
    (hbp : shouldBypassCache pathSegments = false)
    (hmeta : (getMetadata s apiId).1 = some T)
    (hdata : s.dataFiles apiId = some (DataFile.ok payload))
    (hfresh : Δ < cacheExpiration) :
    (getCachedApiData s apiId pathSegments (T + Δ) store).fetchCount = 0 ∧
    (getCachedApiData s apiId pathSegments (T + Δ) store).result = Except.ok payload := by
  have hdf : (getMetadata s apiId).2.dataFiles = s.dataFiles :=
    getMetadata_snd_dataFiles s apiId
  have hsub : T + Δ - T = Δ := by omega
  unfold getCachedApiData
  rw [hbp]
  simp only [Bool.false_eq_true, if_false, hmeta, hsub, if_pos hfresh, hdf, hdata]
  exact ⟨trivial, trivial⟩

theorem c1_fresh_hit_avoids_fetch_witness :
    (getCachedApiData stateFresh "ds1" ["v1", "api", "use"] (1000 + 60000)
        (Except.error "store down")).fetchCount = 0 ∧
    (getCachedApiData stateFresh "ds1" ["v1", "api", "use"] (1000 + 60000)
        (Except.error "store down")).result = Except.ok payloadA :=
  c1_fresh_hit_avoids_fetch stateFresh "ds1" ["v1", "api", "use"] 1000 60000 payloadA
    (Except.error "store down") (by decide) rfl rfl (by decide)

/-- C2: when the routing tokens contain a bypass keyword, `get` invokes
the store fetch, returns its result (success directly, failure as the
generic error), and leaves the whole cache state — in-process map, data
files and metadata files — exactly as it was, whatever that state is. -/
theorem c2_bypass_never_touches_cache (s : CacheState) (apiId : String)
    (pathSegments : List String) (now : Nat) (store : Except String (List Record))
    (hbp : shouldBypassCache pathSegments = true) :
    (getCachedApiData s apiId pathSegments now store).fetchCount = 1 ∧
    (getCachedApiData s apiId pathSegments now store).state = s ∧
    (∀ payload, store = Except.ok payload →
      (getCachedApiData s apiId pathSegments now store).result = Except.ok payload) ∧
    (∀ e, store = Except.error e →
      (getCachedApiData s apiId pathSegments now store).result =
        Except.error "Failed to fetch API data") := by
  unfold getCachedApiData
  rw [hbp]
  cases store <;> simp

theorem c2_bypass_never_touches_cache_witness :
    (getCachedApiData stateFresh "ds1" ["v1", "api", "use", "bao.ngo"] 1200
        (Except.ok [])).fetchCount = 1 ∧
    (getCachedApiData stateFresh "ds1" ["v1", "api", "use", "bao.ngo"] 1200
        (Except.ok [])).state = stateFresh ∧
    (getCachedApiData stateFresh "ds1" ["v1", "api", "use", "bao.ngo"] 1200
        (Except.ok [])).result = Except.ok [] := by
  have h := c2_bypass_never_touches_cache stateFresh "ds1"
    ["v1", "api", "use", "bao.ngo"] 1200 (Except.ok []) (by decide)
  exact ⟨h.1, h.2.1, h.2.2.1 [] rfl⟩

/-- C3: a non-bypass `get` whose metadata is absent or at least
`expirationWindow` old invokes the store fetch exactly once; on success it
persists the payload to the data file, writes the durable metadata file
and the in-process map with `fetchedAt = now`, and returns the fresh
payload. -/
theorem c3_miss_refreshes (s : CacheState) (apiId : String)
    (pathSegments : List String) (now : Nat) (payload : List Record)
    (hbp : shouldBypassCache pathSegments = false)
    (hstale : ∀ t, (getMetadata s apiId).1 = some t → cacheExpiration ≤ now - t) :
    (getCachedApiData s apiId pathSegments now (Except.ok payload)).fetchCount = 1 ∧
    (getCachedApiData s apiId pathSegments now (Except.ok payload)).result =
      Except.ok payload ∧
    (getCachedApiData s apiId pathSegments now (Except.ok payload)).state.dataFiles apiId =
      some (DataFile.ok payload) ∧
    (getCachedApiData s apiId pathSegments now (Except.ok payload)).state.metaFiles apiId =
      some (MetaFile.ok now) ∧
    (getCachedApiData s apiId pathSegments now (Except.ok payload)).state.metadataCache
      (cacheKeyOf apiId) = some now := by
  unfold getCachedApiData
  rw [hbp]
  simp only [Bool.false_eq_true, if_false]
  cases hm : (getMetadata s apiId).1 with
  | none => simp [refreshPath, updateMetadata, setMap]
  | some t =>
    have hge := hstale t hm
    have : ¬(now - t < cacheExpiration) := by omega
    simp [this, refreshPath, updateMetadata, setMap]

theorem c3_miss_refreshes_witness :
    (getCachedApiData stateFresh "ds1" [] (1000 + cacheExpiration)
        (Except.ok payloadA)).fetchCount = 1 ∧
    (getCachedApiData stateFresh "ds1" [] (1000 + cacheExpiration)
        (Except.ok payloadA)).result = Except.ok payloadA ∧
    (getCachedApiData stateFresh "ds1" [] (1000 + cacheExpiration)
        (Except.ok payloadA)).state.dataFiles "ds1" = some (DataFile.ok payloadA) ∧
    (getCachedApiData stateFresh "ds1" [] (1000 + cacheExpiration)
        (Except.ok payloadA)).state.metaFiles "ds1" =
      some (MetaFile.ok (1000 + cacheExpiration)) ∧
    (getCachedApiData stateFresh "ds1" [] (1000 + cacheExpiration)
        (Except.ok payloadA)).state.metadataCache (cacheKeyOf "ds1") =
      some (1000 + cacheExpiration) :=
  c3_miss_refreshes stateFresh "ds1" [] (1000 + cacheExpiration) payloadA (by decide)
    (fun t ht => by
      have : t = 1000 := by
        have : some t = some 1000 := by rw [← ht]; rfl
        exact Option.some.inj this
      omega)

/-- C5: a non-bypass `get` with fresh metadata (`Δ < expirationWindow`)
whose payload file is missing or unreadable fails with the propagated
error: the store fetch is not invoked and neither the data files nor the
metadata files are modified. -/
theorem c5_corrupt_payload_fatal (s : CacheState) (apiId : String)
    (pathSegments : List String) (T Δ : Nat) (store : Except String (List Record))
    (hbp : shouldBypassCache pathSegments = false)
    (hmeta : (getMetadata s apiId).1 = some T)
    (hfresh : Δ < cacheExpiration)
    (hdata : ∀ payload, s.dataFiles apiId ≠ some (DataFile.ok payload)) :
    (getCachedApiData s apiId pathSegments (T + Δ) store).result =
      Except.error "Failed to fetch API data" ∧
    (getCachedApiData s apiId pathSegments (T + Δ) store).fetchCount = 0 ∧
    (getCachedApiData s apiId pathSegments (T + Δ) store).state.dataFiles = s.dataFiles ∧
    (getCachedApiData s apiId pathSegments (T + Δ) store).state.metaFiles = s.metaFiles := by
  have hdf : (getMetadata s apiId).2.dataFiles = s.dataFiles :=
    getMetadata_snd_dataFiles s apiId
  have hmf : (getMetadata s apiId).2.metaFiles = s.metaFiles :=
    getMetadata_snd_metaFiles s apiId
  have hsub : T + Δ - T = Δ := by omega
  unfold getCachedApiData
  rw [hbp]
  simp only [Bool.false_eq_true, if_false, hmeta, hsub, if_pos hfresh, hdf]
  cases hd : s.dataFiles apiId with
  | none => exact ⟨trivial, trivial, trivial, hmf⟩
  | some df =>
    cases df with
    | ok payload => exact absurd hd (hdata payload)
    | corrupt => exact ⟨trivial, trivial, trivial, hmf⟩

theorem c5_corrupt_payload_fatal_witness :
    (getCachedApiData stateCorruptData "ds1" [] (1000 + 200)
        (Except.ok payloadA)).result = Except.error "Failed to fetch API data" ∧
    (getCachedApiData stateCorruptData "ds1" [] (1000 + 200)
        (Except.ok payloadA)).fetchCount = 0 ∧
    (getCachedApiData stateCorruptData "ds1" [] (1000 + 200)
        (Except.ok payloadA)).state.dataFiles = stateCorruptData.dataFiles ∧
    (getCachedApiData stateCorruptData "ds1" [] (1000 + 200)
        (Except.ok payloadA)).state.metaFiles = stateCorruptData.metaFiles :=
  c5_corrupt_payload_fatal stateCorruptData "ds1" [] 1000 200 (Except.ok payloadA)
    (by decide) rfl (by decide)
    (fun payload h => by
      have : some DataFile.corrupt = some (DataFile.ok payload) := by rw [← h]; rfl
      exact absurd (Option.some.inj this) (by intro hc; cases hc))

/-- C6 counterexample: the rejection produced by a failing store fetch on
an empty cache and the rejection produced by fresh metadata with an
unreadable payload are the identical value, the generic error
`Failed to fetch API data` — so the caller cannot tell the two
conditions apart from the rejected value. -/
theorem c6_counterexample :
    (getCachedApiData stateEmpty "ds1" [] 0 (Except.error "store down")).result =
      (getCachedApiData stateCorruptData "ds1" [] 1200 (Except.ok payloadA)).result ∧
    (getCachedApiData stateEmpty "ds1" [] 0 (Except.error "store down")).result =
      Except.error "Failed to fetch API data" :=
  ⟨rfl, rfl⟩

/-- C6 amended: every call to `get` either succeeds with a payload or
rejects with the single generic error `Failed to fetch API data` —
both the store-fetch-failed condition and the
fresh-metadata-with-unreadable-payload condition surface as that one
indistinguishable value. -/
theorem c6_amended_single_generic_error (s : CacheState) (apiId : String)
    (pathSegments : List String) (now : Nat) (store : Except String (List Record)) :
    (getCachedApiData s apiId pathSegments now store).result =
      Except.error "Failed to fetch API data" ∨
    (∃ payload, (getCachedApiData s apiId pathSegments now store).result =
      Except.ok payload) := by
  unfold getCachedApiData
  split
  · cases store with
    | ok payload => exact Or.inr ⟨payload, rfl⟩
    | error e => exact Or.inl rfl
  · cases hm : (getMetadata s apiId).1 with
    | none =>
      cases store with
      | ok payload => exact Or.inr ⟨payload, by simp [hm, refreshPath, updateMetadata]⟩
      | error e => exact Or.inl (by simp [hm, refreshPath])
    | some t =>
      by_cases hf : now - t < cacheExpiration
      · cases hd : (getMetadata s apiId).2.dataFiles apiId with
        | none => exact Or.inl (by simp [hm, hf, hd])
        | some df =>
          cases df with
          | ok payload => exact Or.inr ⟨payload, by simp [hm, hf, hd]⟩
          | corrupt => exact Or.inl (by simp [hm, hf, hd])
      · cases store with
        | ok payload =>
          exact Or.inr ⟨payload, by simp [hm, hf, refreshPath, updateMetadata]⟩
        | error e => exact Or.inl (by simp [hm, hf, refreshPath])

/-- C10: with no in-process metadata entry and an unreadable durable
metadata file, `getMetadata` returns `null` and a non-bypass `get`
proceeds as a normal miss: the store is fetched and the entry
repopulated, rather than the request failing with a corruption error. -/
theorem c10_corrupt_metadata_is_normal_miss (s : CacheState) (apiId : String)
    (pathSegments : List String) (now : Nat) (payload : List Record)
    (hbp : shouldBypassCache pathSegments = false)
    (hmem : s.metadataCache (cacheKeyOf apiId) = none)
    (hfile : s.metaFiles apiId = some MetaFile.corrupt) :
    (getMetadata s apiId).1 = none ∧
    (getCachedApiData s apiId pathSegments now (Except.ok payload)).result =
      Except.ok payload ∧
    (getCachedApiData s apiId pathSegments now (Except.ok payload)).fetchCount = 1 ∧
    (getCachedApiData s apiId pathSegments now (Except.ok payload)).state.dataFiles apiId =
      some (DataFile.ok payload) ∧
    (getCachedApiData s apiId pathSegments now (Except.ok payload)).state.metaFiles apiId =
      some (MetaFile.ok now) := by
  have hmd : getMetadata s apiId = (none, s) := by
    unfold getMetadata
    rw [hmem, hfile]
  refine ⟨by rw [hmd], ?_⟩
  unfold getCachedApiData
  rw [hbp]
  simp only [Bool.false_eq_true, if_false, hmd]
  simp [refreshPath, updateMetadata, setMap]

theorem c10_corrupt_metadata_is_normal_miss_witness :
    (getMetadata stateCorruptMeta "ds1").1 = none ∧
    (getCachedApiData stateCorruptMeta "ds1" [] 5 (Except.ok payloadA)).result =
      Except.ok payloadA ∧
    (getCachedApiData stateCorruptMeta "ds1" [] 5 (Except.ok payloadA)).fetchCount = 1 ∧
    (getCachedApiData stateCorruptMeta "ds1" [] 5 (Except.ok payloadA)).state.dataFiles
      "ds1" = some (DataFile.ok payloadA) ∧
    (getCachedApiData stateCorruptMeta "ds1" [] 5 (Except.ok payloadA)).state.metaFiles
      "ds1" = some (MetaFile.ok 5) :=
  c10_corrupt_metadata_is_normal_miss stateCorruptMeta "ds1" [] 5 payloadA
    (by decide) rfl rfl

/-- C7: `parseQuery` chooses the operator from the decoded value's leading
marker (checked in the order `!`, `>=`, `<=`, `>`, `<`, none); the four
ordering operators convert the remainder to a number exactly when the
numeric parse succeeds and keep it a string otherwise, while equality and
inequality always keep the decoded string; in particular
`{status: "!active"}` parses to a not-equal on the string `active` and
`{price: ">=100"}` to a greater-or-equal on the number `100`. -/
theorem c7_operator_parsing :
    (∀ k v d, decodeURIComponent v = some d → strStartsWith d "!" = true →
      parseQuery [(k, v)] = some [(k, ⟨Op.ne, JSVal.str (strDropChars d 1)⟩)]) ∧
    (∀ k v d, decodeURIComponent v = some d → strStartsWith d "!" = false →
      strStartsWith d ">=" = true →
      parseQuery [(k, v)] = some [(k, ⟨Op.ge, numOrStr (strDropChars d 2)⟩)]) ∧
    (∀ k v d, decodeURIComponent v = some d → strStartsWith d "!" = false →
      strStartsWith d ">=" = false → strStartsWith d "<=" = true →
      parseQuery [(k, v)] = some [(k, ⟨Op.le, numOrStr (strDropChars d 2)⟩)]) ∧
    (∀ k v d, decodeURIComponent v = some d → strStartsWith d "!" = false →
      strStartsWith d ">=" = false → strStartsWith d "<=" = false →
      strStartsWith d ">" = true →
      parseQuery [(k, v)] = some [(k, ⟨Op.gt, numOrStr (strDropChars d 1)⟩)]) ∧
    (∀ k v d, decodeURIComponent v = some d → strStartsWith d "!" = false →
      strStartsWith d ">=" = false → strStartsWith d "<=" = false →
      strStartsWith d ">" = false → strStartsWith d "<" = true →
      parseQuery [(k, v)] = some [(k, ⟨Op.lt, numOrStr (strDropChars d 1)⟩)]) ∧
    (∀ k v d, decodeURIComponent v = some d → strStartsWith d "!" = false →
      strStartsWith d ">=" = false → strStartsWith d "<=" = false →
      strStartsWith d ">" = false → strStartsWith d "<" = false →
      parseQuery [(k, v)] = some [(k, ⟨Op.eq, JSVal.str d⟩)]) ∧
    (∀ s n, jsParseFloat s = some n → numOrStr s = JSVal.num n) ∧
    (∀ s, jsParseFloat s = none → numOrStr s = JSVal.str s) ∧
    parseQuery [("status", "!active")] =
      some [("status", ⟨Op.ne, JSVal.str "active"⟩)] ∧
    parseQuery [("price", ">=100")] =
      some [("price", ⟨Op.ge, JSVal.num (JSNum.fin 100)⟩)] := by
  refine ⟨?_, ?_, ?_, ?_, ?_, ?_, ?_, ?_, ?_, ?_⟩
  · intro k v d hd h1
    simp [parseQuery, hd, parseDecoded, h1]
  · intro k v d hd h1 h2
    simp [parseQuery, hd, parseDecoded, h1, h2]
  · intro k v d hd h1 h2 h3
    simp [parseQuery, hd, parseDecoded, h1, h2, h3]
  · intro k v d hd h1 h2 h3 h4
    simp [parseQuery, hd, parseDecoded, h1, h2, h3, h4]
  · intro k v d hd h1 h2 h3 h4 h5
    simp [parseQuery, hd, parseDecoded, h1, h2, h3, h4, h5]
  · intro k v d hd h1 h2 h3 h4 h5
    simp [parseQuery, hd, parseDecoded, h1, h2, h3, h4, h5]
  · intro s n hn
    simp [numOrStr, hn]
  · intro s hn
    simp [numOrStr, hn]
  · rfl
  · have h2 : jsParseFloat "100" = some (JSNum.fin 100) := by
      have h : "100".data = ['1', '0', '0'] := rfl
      simp [jsParseFloat, jsParseFloatSigned, isInfinityAt, parseDecBody, takeDigits,
        parseExpo, applyExpo, digitsToNat, isJsWhitespace, h]
    calc parseQuery [("price", ">=100")]
        = some [("price", ⟨Op.ge, numOrStr "100"⟩)] := rfl
      _ = some [("price", ⟨Op.ge, JSVal.num (JSNum.fin 100)⟩)] := by simp [numOrStr, h2]

theorem c7_operator_parsing_witness :
    parseQuery [("flag", "!on")] = some [("flag", ⟨Op.ne, JSVal.str "on"⟩)] ∧
    parseQuery [("price", ">=100")] =
      some [("price", ⟨Op.ge, JSVal.num (JSNum.fin 100)⟩)] :=
  ⟨c7_operator_parsing.1 "flag" "!on" "!on" rfl rfl,
   c7_operator_parsing.2.2.2.2.2.2.2.2.2⟩

/-- C8: the record filter of `processQuery` keeps exactly the records
satisfying every parsed predicate (logical AND): membership in the output
is equivalent to membership in the input plus satisfaction of all
predicates, a record failing any one predicate is excluded, and the output
is an order-preserving subsequence of the input (stable filter). -/
theorem c8_filter_and_semantics (records : List Record)
    (preds : List (String × Cond)) :
    List.Sublist (applyFilter records preds) records ∧
    (∀ r, r ∈ applyFilter records preds ↔
      r ∈ records ∧ ∀ kc ∈ preds, evalOp kc.2.op (getField r kc.1) kc.2.val = true) ∧
    (∀ r kc, r ∈ records → kc ∈ preds →
      evalOp kc.2.op (getField r kc.1) kc.2.val = false →
      r ∉ applyFilter records preds) := by
  refine ⟨List.filter_sublist records, ?_, ?_⟩
  · intro r
    simp [applyFilter, List.mem_filter, List.all_eq_true]
  · intro r kc hr hkc hfail hmem
    have hall : ∀ kc2 ∈ preds, evalOp kc2.2.op (getField r kc2.1) kc2.2.val = true := by
      have := (List.mem_filter.mp hmem).2
      simpa [List.all_eq_true] using this
    have := hall kc hkc
    rw [hfail] at this
    exact Bool.false_ne_true this

theorem c8_filter_and_semantics_witness :
    [("a", JSVal.str "1"), ("b", JSVal.str "2")] ∈
      applyFilter
        [[("a", JSVal.str "1"), ("b", JSVal.str "2")],
         [("a", JSVal.str "1"), ("b", JSVal.str "3")]]
        [("a", ⟨Op.eq, JSVal.str "1"⟩), ("b", ⟨Op.eq, JSVal.str "2"⟩)] ∧
    [("a", JSVal.str "1"), ("b", JSVal.str "3")] ∉
      applyFilter
        [[("a", JSVal.str "1"), ("b", JSVal.str "2")],
         [("a", JSVal.str "1"), ("b", JSVal.str "3")]]
        [("a", ⟨Op.eq, JSVal.str "1"⟩), ("b", ⟨Op.eq, JSVal.str "2"⟩)] := by
  constructor
  · exact ((c8_filter_and_semantics
      [[("a", JSVal.str "1"), ("b", JSVal.str "2")],
       [("a", JSVal.str "1"), ("b", JSVal.str "3")]]
      [("a", ⟨Op.eq, JSVal.str "1"⟩), ("b", ⟨Op.eq, JSVal.str "2"⟩)]).2.1
      [("a", JSVal.str "1"), ("b", JSVal.str "2")]).mpr
      ⟨by decide, by decide⟩
  · exact (c8_filter_and_semantics
      [[("a", JSVal.str "1"), ("b", JSVal.str "2")],
       [("a", JSVal.str "1"), ("b", JSVal.str "3")]]
      [("a", ⟨Op.eq, JSVal.str "1"⟩), ("b", ⟨Op.eq, JSVal.str "2"⟩)]).2.2
      [("a", JSVal.str "1"), ("b", JSVal.str "3")]
      ("b", ⟨Op.eq, JSVal.str "2"⟩)
      (by decide) (by decide) (by decide)

/-- C9: `parseQuery` percent-decodes each raw value before inspecting the
operator marker: whenever decoding succeeds, the parsed predicate is a
function of the decoded value alone, and the raw value `%3E5` — which
decodes to `>5` — parses as a greater-than predicate with the numeric
operand `5`, not as an equality predicate on literal text. -/
theorem c9_decode_before_marker :
    (∀ k v d, decodeURIComponent v = some d →
      parseQuery [(k, v)] = some [(k, parseDecoded d)]) ∧
    decodeURIComponent "%3E5" = some ">5" ∧
    parseQuery [("price", "%3E5")] =
      some [("price", ⟨Op.gt, JSVal.num (JSNum.fin 5)⟩)] := by
  refine ⟨?_, rfl, ?_⟩
  · intro k v d hd
    simp [parseQuery, hd]
  · have h2 : jsParseFloat "5" = some (JSNum.fin 5) := by
      have h : "5".data = ['5'] := rfl
      simp [jsParseFloat, jsParseFloatSigned, isInfinityAt, parseDecBody, takeDigits,
        parseExpo, applyExpo, digitsToNat, isJsWhitespace, h]
    calc parseQuery [("price", "%3E5")]
        = some [("price", ⟨Op.gt, numOrStr "5"⟩)] := rfl
      _ = some [("price", ⟨Op.gt, JSVal.num (JSNum.fin 5)⟩)] := by simp [numOrStr, h2]

theorem c9_decode_before_marker_witness :
    parseQuery [("price", "%3E5")] = some [("price", parseDecoded ">5")] :=
  c9_decode_before_marker.1 "price" "%3E5" ">5" rfl

end Switchboard
